import Mathlib

/-!
Verification development for the vehicle-listing scraper repository
(`bama_scraper.py`, `divar_scraper.py`, `utils/helpers.py`, `config/settings.py`).

The Python/JS code is shallowly embedded: per-card DOM fragments become
explicit structures, the pandas-based `save_to_csv` becomes a pure function
over association-list records, the async retry decorator becomes an explicit
recursion over attempts, and the browser-fallback loop becomes a recursion
over engine behaviour descriptions.
-/

namespace VehicleScraper

/-! ## String primitives (Python `in`, `strip`, `str.isdigit`; JS `\d`) -/

/-- One step of substring search: does `needle` start `hay`? -/
def charsStart : List Char → List Char → Bool
  | [], _ => true
  | _ :: _, [] => false
  | a :: xs, b :: ys => a == b && charsStart xs ys

/-- Substring test on character lists (Python `needle in hay`). -/
def containsSub (needle : List Char) : List Char → Bool
  | [] => needle.isEmpty
  | b :: bs => charsStart needle (b :: bs) || containsSub needle bs

/-- Python `needle in hay` for strings. -/
def strContains (hay needle : String) : Bool :=
  containsSub needle.data hay.data

/-- Python `str.strip()` with no argument: remove leading and trailing
whitespace. -/
def pyStrip (s : String) : String :=
  String.mk
    (((s.data.dropWhile Char.isWhitespace).reverse.dropWhile
        Char.isWhitespace).reverse)

/-- Python `str.startswith`. -/
def strStartsWith (s pre : String) : Bool :=
  charsStart pre.data s.data

/-- Lexicographic comparison of character lists by code point — the string
order Python uses when pandas sorts a column of `str` values. -/
def charsLe : List Char → List Char → Bool
  | [], _ => true
  | _ :: _, [] => false
  | a :: xs, b :: ys =>
    if a.toNat < b.toNat then true
    else if b.toNat < a.toNat then false
    else charsLe xs ys

/-- `a <= b` on Python strings. -/
def strLe (a b : String) : Bool :=
  charsLe a.data b.data

/-- Python `str.isdigit` restricted to the digit ranges occurring on the two
target sites: ASCII digits, Arabic-Indic digits (U+0660–U+0669) and
Extended Arabic-Indic (Persian) digits (U+06F0–U+06F9). -/
def pyIsDigit (c : Char) : Bool :=
  c.isDigit || (0x660 ≤ c.toNat && c.toNat ≤ 0x669)
    || (0x6F0 ≤ c.toNat && c.toNat ≤ 0x6F9)

/-- `clean_price` from `bama_scraper.py`:
`"".join(filter(str.isdigit, text)) if text else ""`. -/
def clean_price (text : String) : String :=
  String.mk (text.data.filter pyIsDigit)

/-- The Divar in-page JS `priceRaw.replace(/[^\d]/g, '')`: JS `\d` keeps only
ASCII digits. -/
def jsStripNonDigits (text : String) : String :=
  String.mk (text.data.filter Char.isDigit)

/-! ## Raw records: Python dicts fed to `pandas.DataFrame` -/

/-- One record as built by the scrapers: an ordered association list of
field name / field value pairs (a Python dict preserving insertion order). -/
abbrev RawRecord := List (String × String)

/-- Dict lookup returning `none` when the key is absent (in the DataFrame an
absent key becomes NaN in that record's row). -/
def RawRecord.get (r : RawRecord) (k : String) : Option String :=
  (r.find? (fun p => p.1 == k)).map (fun p => p.2)

/-- The `subset` argument of `drop_duplicates` in `save_to_csv`. -/
def dedupSubsetCols : List String :=
  ["model", "year", "mileage", "price", "source_url"]

/-- The deduplication key of a record: the values (possibly NaN = `none`) of
the five subset columns.  pandas treats NaN as equal to NaN when comparing
key tuples, matching `Option.none = Option.none`. -/
def rawKey (r : RawRecord) : List (Option String) :=
  dedupSubsetCols.map (fun k => RawRecord.get r k)

/-- The keys present in one record. -/
def recKeys (r : RawRecord) : List String := r.map Prod.fst

/-- Keep-first duplicate removal on a list of column names. -/
def firstDedup : List String → List String
  | [] => []
  | k :: ks => k :: (firstDedup ks).filter (fun x => x != k)

/-- DataFrame columns: union of the dict keys of all records, in order of
first appearance. -/
def rawColumns (data : List RawRecord) : List String :=
  firstDedup (data.flatMap recKeys)

/-- `drop_duplicates(subset=..., keep='first')`: walk the rows in order,
keeping a row only when its key tuple has not been seen. -/
def rawDedupGo : List RawRecord → List (List (Option String)) → List RawRecord
  | [], _ => []
  | r :: rs, seen =>
    if seen.contains (rawKey r) then rawDedupGo rs seen
    else r :: rawDedupGo rs (rawKey r :: seen)

/-- Deduplicate a batch by the five-column key, keeping first occurrences. -/
def rawDedup (data : List RawRecord) : List RawRecord :=
  rawDedupGo data []

/-- Comparison used by `sort_values("model")`: compare the (possibly NaN)
`model` values, NaN sorting last (`na_position='last'`). -/
def optLe (a b : Option String) : Bool :=
  match a, b with
  | some x, some y => strLe x y
  | some _, none => true
  | none, some _ => false
  | none, none => true

/-- Row order of the written file: ascending in the `model` column. -/
def modelLe (r s : RawRecord) : Bool :=
  optLe (RawRecord.get r "model") (RawRecord.get s "model")

/-- Sorted insertion of one record into a run of records ascending in
`model`. -/
def orderedInsertB (a : RawRecord) : List RawRecord → List RawRecord
  | [] => [a]
  | b :: bs => if modelLe a b then a :: b :: bs else b :: orderedInsertB a bs

/-- `sort_values("model")`: produce the rows in ascending `model` order. -/
def sortByModel : List RawRecord → List RawRecord
  | [] => []
  | a :: rest => orderedInsertB a (sortByModel rest)

/-- The records that end up as data rows of the CSV: deduplicated, then
sorted ascending by `model`. -/
def savedRecords (data : List RawRecord) : List RawRecord :=
  sortByModel (rawDedup data)

/-- `drop_duplicates` raises `KeyError` unless every subset column exists in
the frame; this predicate is that check. -/
def hasDedupCols (data : List RawRecord) : Bool :=
  dedupSubsetCols.all (fun k => (rawColumns data).contains k)

/-- The message of the exception escaping `save_to_csv` when a dedup column
is absent from the frame. -/
def keyErrMsg : String := "KeyError: dedup subset column missing"

/-- `save_to_csv` viewed as a pure function of the batch:
`.ok none` = empty batch, warn and write nothing;
`.ok (some rows)` = file written with those data rows;
`.error` = `drop_duplicates` raised before anything was written. -/
def rawSave (data : List RawRecord) : Except String (Option (List RawRecord)) :=
  if data.isEmpty then .ok none
  else if hasDedupCols data then .ok (some (savedRecords data))
  else .error keyErrMsg

/-- Rendering of one field into the CSV: NaN (absent key) prints as "". -/
def renderField (r : RawRecord) (k : String) : String :=
  (RawRecord.get r k).getD ""

/-- File content: header row (column names) followed by one rendered row per
deduplicated record. -/
def csvRows (data : List RawRecord) : List (List String) :=
  rawColumns data ::
    (savedRecords data).map (fun r => (rawColumns data).map (renderField r))

/-- Primary output path `output/{prefix}_{date}.csv`. -/
def primaryPath (pfx today : String) : String :=
  "output/" ++ pfx ++ "_" ++ today ++ ".csv"

/-- Backup path `backups/{prefix}_{date}_backup.csv` (BACKUP_ENABLED = True). -/
def backupPath (pfx today : String) : String :=
  "backups/" ++ pfx ++ "_" ++ today ++ "_backup.csv"

/-- The directory tree, as a map from path to file content. -/
abbrev FileSys := String → Option (List (List String))

/-- `save_to_csv` acting on the file system: `df.to_csv` truncates and
rewrites the target paths (mode `'w'`, no append). -/
def rawSaveFS (fs : FileSys) (data : List RawRecord) (pfx today : String) :
    FileSys × Except String (Option String) :=
  if data.isEmpty then (fs, .ok none)
  else if hasDedupCols data then
    (fun path =>
      if path = primaryPath pfx today ∨ path = backupPath pfx today then
        some (csvRows data)
      else fs path,
     .ok (some (primaryPath pfx today)))
  else (fs, .error keyErrMsg)

/-! ## Extraction mapper: `bama_scraper.scrape` per-card loop -/

/-- The anchor element `a.bama-ad.listing` of one Bama card, with its two
attributes as Playwright returns them (`get_attribute` may be `None`). -/
structure BamaLink where
  titleAttr : Option String
  hrefAttr : Option String

/-- One Bama ad card: which sub-elements exist and their text content. -/
structure BamaCard where
  link : Option BamaLink
  yearText : Option String
  mileageTexts : List String
  descText : Option String
  priceText : Option String
  negotiableText : Option String

/-- `ad_url` fixing plus the final `ad_url or ""` when building the dict:
a relative non-empty href gets the site origin prepended. -/
def bamaUrl (href : Option String) : String :=
  match href with
  | none => ""
  | some u =>
    if u != "" && !(strStartsWith u "http") then "https://bama.ir" ++ u else u

/-- The negotiable-price sentinel literal used by both scrapers. -/
def negotiableSentinel : String := "توافقی"

/-- The per-card body of the Bama extraction loop: `none` models `continue`
(card skipped), `some r` models `all_data.append(r)`. -/
def bamaCard (today : String) (c : BamaCard) : Option RawRecord :=
  match c.link with
  | none => none
  | some l =>
    let model := pyStrip (l.titleAttr.getD "")
    let adUrl := bamaUrl l.hrefAttr
    let year := pyStrip (c.yearText.getD "")
    let mileage := pyStrip (String.intercalate " " c.mileageTexts)
    let descr := pyStrip (c.descText.getD "")
    let pricePair : Option (String × String) :=
      match c.priceText with
      | some raw => some (clean_price raw, "fixed")
      | none =>
        match c.negotiableText with
        | some raw =>
          some (if clean_price raw = "" then negotiableSentinel else clean_price raw,
                "negotiable")
        | none => none
    match pricePair with
    | none => none
    | some (price, priceStatus) =>
      if model != "" && (price != "" || priceStatus == "negotiable") then
        some [("model", model), ("year", year), ("mileage", mileage),
              ("description", descr), ("price", price),
              ("price_status", priceStatus), ("source_url", adUrl),
              ("scrape_date", today)]
      else none

/-- The Bama mapping over all revealed cards. -/
def bamaExtract (cards : List BamaCard) (today : String) : List RawRecord :=
  cards.filterMap (bamaCard today)

/-! ## Extraction mapper: Divar in-page JS plus the Python loop -/

/-- One Divar post card as seen by the in-page extraction script. -/
structure DivarCard where
  hasTitle : Bool
  titleText : String
  descTexts : List String

/-- Start URL of the Divar scraper, used verbatim as `source_url`. -/
def divarUrlConst : String := "https://divar.ir/s/tehran/car"

/-- The per-card JS mapper plus the Python dict construction: the JS returns
`null` (here `none`) when the title element is missing or there are fewer
than two description elements; otherwise the Python loop appends a
five-field dict. -/
def divarCard (today : String) (c : DivarCard) : Option RawRecord :=
  if c.hasTitle && decide (2 ≤ c.descTexts.length) then
    let model := pyStrip c.titleText
    let mileage := pyStrip (c.descTexts.getD 0 "")
    let priceRaw := pyStrip (c.descTexts.getD 1 "")
    let price :=
      if jsStripNonDigits priceRaw = "" then negotiableSentinel
      else jsStripNonDigits priceRaw
    some [("model", model), ("mileage", mileage), ("price", price),
          ("source_url", divarUrlConst), ("scrape_date", today)]
  else none

/-- The Divar mapping over all cards (`.filter(x => x)` drops the nulls). -/
def divarExtract (cards : List DivarCard) (today : String) : List RawRecord :=
  cards.filterMap (divarCard today)

/-! ## Retry decorator (`utils/helpers.py`, `retry`) -/

/-- One run of the wrapped coroutine is abstracted as a function from the
attempt number (1-based) to its outcome.  `retryAux op delay rem attempt
lastExc delays calls` models the loop from attempt `attempt` with `rem`
attempts still allowed; it returns the final outcome (`.error lastExc`
models `raise last_exc`, with `none` standing for the initial
`last_exc = None`), the number of invocations performed, and the recorded
`asyncio.sleep` durations in order. -/
def retryAux {E A : Type} (op : Nat → Except E A) (delay : ℚ) :
    Nat → Nat → Option E → List ℚ → Nat → Except (Option E) A × Nat × List ℚ
  | 0, _, lastExc, delays, calls => (.error lastExc, calls, delays)
  | rem + 1, attempt, _, delays, calls =>
    match op attempt with
    | .ok a => (.ok a, calls + 1, delays)
    | .error e =>
      if rem = 0 then (.error (some e), calls + 1, delays)
      else retryAux op delay rem (attempt + 1) (some e)
        (delays ++ [delay * (attempt : ℚ)]) (calls + 1)

/-- The wrapper produced by `retry(max_attempts, delay)` applied to `op`. -/
def retryRun {E A : Type} (op : Nat → Except E A) (maxAttempts : Nat)
    (delay : ℚ) : Except (Option E) A × Nat × List ℚ :=
  retryAux op delay maxAttempts 1 none [] 0

/-! ## Content reveal loops -/

/-- `scroll_and_load` from `bama_scraper.py`, abstracted over the sequence of
observed `document.body.scrollHeight` values (`h n` = height read in round
`n`).  The fuel is the remaining iterations of `range(1, max_rounds + 1)`;
the function returns the number of rounds executed. -/
def bamaLoop (h : Nat → Nat) : Nat → Nat → Nat → Nat → Nat
  | 0, roundNum, _, _ => roundNum - 1
  | fuel + 1, roundNum, prev, stable =>
    let cur := h roundNum
    if cur = prev then
      if 3 ≤ stable + 1 then roundNum
      else bamaLoop h fuel (roundNum + 1) cur (stable + 1)
    else bamaLoop h fuel (roundNum + 1) cur 0

/-- Rounds executed by `scroll_and_load` (`max_rounds = 50`, `prev_height`
and `stable_rounds` start at 0, rounds count from 1). -/
def bamaRounds (h : Nat → Nat) : Nat := bamaLoop h 50 1 0 0

/-- Value of the `stable_rounds` counter after round `n`, computed directly
from the height sequence (round 1 compares against the initial
`prev_height = 0`). -/
def stableCnt (h : Nat → Nat) : Nat → Nat
  | 0 => 0
  | n + 1 =>
    if h (n + 1) = (if n = 0 then 0 else h n) then stableCnt h n + 1 else 0

/-- The Divar reveal loop `for i in range(15)`: it scrolls a fixed 15 times,
logging the card count each round, with no early exit. -/
def divarScrollLog (count : Nat → Nat) : List Nat :=
  (List.range 15).map (fun i => count (i + 1))

/-! ## Anti-bot classification and browser fallback (`launch_browser_with_fallback`) -/

/-- `ANTI_BOT_PHRASES` from `config/settings.py`. -/
def ANTI_BOT_PHRASES : List String := ["just a moment", "checking your browser"]

/-- `CLOUDFLARE_TITLE` from `config/settings.py`. -/
def CLOUDFLARE_TITLE : String := "Cloudflare"

/-- Python `str.lower()`, restricted to the ASCII case mapping (the
configured marker phrases are ASCII and Persian has no letter case). -/
def strToLower (s : String) : String :=
  String.mk (s.data.map Char.toLower)

/-- The title check: `any(phrase in title.lower() for phrase in
[CLOUDFLARE_TITLE.lower()] + ANTI_BOT_PHRASES)`. -/
def titleBlocked (title : String) : Bool :=
  (strToLower CLOUDFLARE_TITLE :: ANTI_BOT_PHRASES).any
    (fun p => strContains (strToLower title) p)

/-- The body check: `body = (text_content or "").lower()` then
`any(phrase in body for phrase in ANTI_BOT_PHRASES)`. -/
def bodyBlocked (bodyText : Option String) : Bool :=
  ANTI_BOT_PHRASES.any (fun p => strContains (strToLower (bodyText.getD "")) p)

/-- A navigated page is classified BLOCKED when either raise fires. -/
def classifyBlocked (title : String) (bodyText : Option String) : Bool :=
  titleBlocked title || bodyBlocked bodyText

/-- Modelled from the spec's words (for refinement comparison only):
"BLOCKED if the title or body contains any configured anti-bot marker
phrase (case-insensitive substring match)", with the configured phrases
read as the Cloudflare title marker together with `ANTI_BOT_PHRASES`. -/
def specBlocked (title bodyText : String) : Bool :=
  (CLOUDFLARE_TITLE :: ANTI_BOT_PHRASES).any
    (fun p => strContains (strToLower title) (strToLower p)
      || strContains (strToLower bodyText) (strToLower p))

/-- External behaviour of one candidate engine: whether each Playwright call
succeeds, what the navigated page shows, and whether each close call
succeeds. -/
structure EngineSpec where
  launchOk : Bool
  contextOk : Bool
  pageOk : Bool
  gotoOk : Bool
  title : String
  bodyText : Option String
  pageCloseOk : Bool
  contextCloseOk : Bool
  browserCloseOk : Bool
deriving DecidableEq

/-- The try-block of one engine reaches the success return exactly when
every call succeeds and the page is not classified BLOCKED. -/
def engineSucceeds (e : EngineSpec) : Bool :=
  e.launchOk && e.contextOk && e.pageOk && e.gotoOk
    && !(classifyBlocked e.title e.bodyText)

/-- `browser` is a non-None local at the point the try-block aborts. -/
def createdBrowser (e : EngineSpec) : Bool := e.launchOk

/-- `context` is a non-None local at the point the try-block aborts. -/
def createdContext (e : EngineSpec) : Bool := e.launchOk && e.contextOk

/-- `page` is a non-None local at the point the try-block aborts. -/
def createdPage (e : EngineSpec) : Bool :=
  e.launchOk && e.contextOk && e.pageOk

/-- The except-branch cleanup `if page: await page.close()` /
`if context: ...` / `if browser: ...`: the three closes run in sequence
with no surrounding try, so the first failing close raises out of
`launch_browser_with_fallback`. -/
def failCleanup (e : EngineSpec) : Except String Unit :=
  if createdPage e && !e.pageCloseOk then .error "page close failed"
  else if createdContext e && !e.contextCloseOk then .error "context close failed"
  else if createdBrowser e && !e.browserCloseOk then .error "browser close failed"
  else .ok ()

/-- Which of (page, context, browser) actually got closed by the
except-branch: a close is attempted only if the resource exists and no
earlier close raised. -/
def closedOnFail (e : EngineSpec) : Bool × Bool × Bool :=
  let pRaise := createdPage e && !e.pageCloseOk
  let cAttempt := !pRaise && createdContext e
  let cRaise := cAttempt && !e.contextCloseOk
  let bAttempt := !pRaise && !cRaise && createdBrowser e
  (createdPage e && e.pageCloseOk, cAttempt && e.contextCloseOk,
   bAttempt && e.browserCloseOk)

/-- Result of the whole fallback: a ready page/context pair from the first
surviving engine, or the `(None, None)` sentinel. -/
inductive FallbackResult where
  | session (e : EngineSpec)
  | noSession
deriving DecidableEq

/-- `launch_browser_with_fallback`: iterate `BROWSER_FALLBACK`; a successful
engine returns its page/context (its browser stays open, ownership moves
to the caller); a failed engine is cleaned up and the next one tried; an
exception thrown by a close call propagates to the caller. -/
def launch_browser_with_fallback : List EngineSpec → Except String FallbackResult
  | [] => .ok .noSession
  | e :: rest =>
    if engineSucceeds e then .ok (.session e)
    else
      match failCleanup e with
      | .error msg => .error msg
      | .ok () => launch_browser_with_fallback rest

/-! ## Lemmas about the retry wrapper -/

theorem retryAux_succ_ok {E A : Type} {op : Nat → Except E A} {delay : ℚ}
    {attempt : Nat} {a : A} (h : op attempt = .ok a) (rem : Nat)
    (last : Option E) (delays : List ℚ) (calls : Nat) :
    retryAux op delay (rem + 1) attempt last delays calls =
      (.ok a, calls + 1, delays) := by
  simp [retryAux, h]

theorem retryAux_err_more {E A : Type} {op : Nat → Except E A} {delay : ℚ}
    {attempt : Nat} {e : E} (h : op attempt = .error e) {rem : Nat}
    (hr : rem ≠ 0) (last : Option E) (delays : List ℚ) (calls : Nat) :
    retryAux op delay (rem + 1) attempt last delays calls =
      retryAux op delay rem (attempt + 1) (some e)
        (delays ++ [delay * (attempt : ℚ)]) (calls + 1) := by
  simp [retryAux, h, hr]

theorem retryAux_all_fail {E A : Type} (op : Nat → Except E A) (delay : ℚ)
    (errs : Nat → E) :
    ∀ rem attempt last delays calls, 1 ≤ rem →
      (∀ i, attempt ≤ i → i < attempt + rem → op i = .error (errs i)) →
      (retryAux op delay rem attempt last delays calls).1 =
          .error (some (errs (attempt + rem - 1)))
        ∧ (retryAux op delay rem attempt last delays calls).2.1 = calls + rem := by
  intro rem
  induction rem with
  | zero => omega
  | succ r ih =>
    intro attempt last delays calls _ hop
    have hatt : op attempt = .error (errs attempt) := hop attempt le_rfl (by omega)
    match r, ih with
    | 0, _ =>
      rw [show attempt + 1 - 1 = attempt from by omega]
      simp [retryAux, hatt]
    | r + 1, ih =>
      rw [retryAux_err_more hatt (by omega)]
      have := ih (attempt + 1) (some (errs attempt))
        (delays ++ [delay * (attempt : ℚ)]) (calls + 1) (by omega)
        (fun i h1 h2 => hop i (by omega) (by omega))
      rw [show attempt + 1 + (r + 1) - 1 = attempt + (r + 1 + 1) - 1 from by omega]
        at this
      exact ⟨this.1, by rw [this.2]; omega⟩

/-- C5.  A wrapped operation failing on attempts 1 and 2 and succeeding on
attempt 3, run through the retry wrapper with `max_attempts = 3`, yields the
success, exactly 3 invocations, and sleeps of `delay * 1` then `delay * 2`,
which are strictly increasing whenever the configured delay is positive. -/
theorem retry_two_failures_then_success {E A : Type} (op : Nat → Except E A)
    (delay : ℚ) (e1 e2 : E) (a : A) (hd : 0 < delay)
    (h1 : op 1 = .error e1) (h2 : op 2 = .error e2) (h3 : op 3 = .ok a) :
    retryRun op 3 delay = (.ok a, 3, [delay * 1, delay * 2])
      ∧ delay * 1 < delay * 2 := by
  refine ⟨?_, by nlinarith⟩
  show retryAux op delay (2 + 1) 1 none [] 0 = _
  rw [retryAux_err_more h1 (by omega)]
  show retryAux op delay (1 + 1) 2 (some e1) _ 1 = _
  rw [retryAux_err_more h2 (by omega)]
  rw [retryAux_succ_ok h3]
  norm_num

/-- Closed instance of the C5 theorem at a concrete operation and delay. -/
theorem retry_two_failures_then_success_witness :
    retryRun (fun n => if n ≤ 2 then (Except.error "boom" : Except String Nat)
        else .ok 7) 3 3 = (.ok 7, 3, [3 * 1, 3 * 2])
      ∧ (3 : ℚ) * 1 < 3 * 2 :=
  retry_two_failures_then_success _ 3 "boom" "boom" 7 (by norm_num) rfl rfl rfl

/-- C6.  A wrapped operation failing on every one of the `max_attempts`
invocations is invoked exactly `max_attempts` times, after which the failure
raised by the wrapped attempt (the surviving `last_exc`) is re-raised to the
caller. -/
theorem retry_exhaustion_reraises {E A : Type} (op : Nat → Except E A)
    (maxAttempts : Nat) (delay : ℚ) (errs : Nat → E) (hmax : 1 ≤ maxAttempts)
    (hop : ∀ i, 1 ≤ i → i ≤ maxAttempts → op i = .error (errs i)) :
    (retryRun op maxAttempts delay).1 = .error (some (errs maxAttempts))
      ∧ (retryRun op maxAttempts delay).2.1 = maxAttempts := by
  have h := retryAux_all_fail op delay errs maxAttempts 1 none [] 0 hmax
    (fun i h1 h2 => hop i h1 (by omega))
  rw [show 1 + maxAttempts - 1 = maxAttempts from by omega] at h
  simpa [retryRun] using h

/-- Closed instance of the C6 theorem: three failing attempts. -/
theorem retry_exhaustion_reraises_witness :
    (retryRun (fun _ => (Except.error "E" : Except String Nat)) 3 1).1 =
        .error (some "E")
      ∧ (retryRun (fun _ => (Except.error "E" : Except String Nat)) 3 1).2.1 = 3 :=
  retry_exhaustion_reraises _ 3 1 (fun _ => "E") (by omega)
    (fun _ _ _ => rfl)

/-! ## Lemmas about the content-reveal loops -/

theorem bamaLoop_le (h : Nat → Nat) :
    ∀ fuel roundNum prev stable,
      bamaLoop h fuel roundNum prev stable ≤ roundNum + fuel - 1 := by
  intro fuel
  induction fuel with
  | zero => intro roundNum prev stable; simp [bamaLoop]
  | succ n ih =>
    intro roundNum prev stable
    rw [bamaLoop]
    split
    · split
      · omega
      · exact le_trans (ih _ _ _) (by omega)
    · exact le_trans (ih _ _ _) (by omega)

/-- The `prev_height` local at the start of round `r` (when no break has
happened yet). -/
def prevOf (h : Nat → Nat) (r : Nat) : Nat :=
  if r = 1 then 0 else h (r - 1)

theorem bamaLoop_stable_le (h : Nat → Nat) :
    ∀ fuel r n, 1 ≤ r → r ≤ n → n ≤ r + fuel - 1 → 3 ≤ stableCnt h n →
      bamaLoop h fuel r (prevOf h r) (stableCnt h (r - 1)) ≤ n := by
  intro fuel
  induction fuel with
  | zero => omega
  | succ fuel ih =>
    intro r n hr hrn hn hst
    obtain ⟨m, rfl⟩ : ∃ m, r = m + 1 := ⟨r - 1, by omega⟩
    have hprev : prevOf h (m + 1) = (if m = 0 then 0 else h m) := by
      unfold prevOf
      by_cases hm : m = 0 <;> simp [hm]
    rw [bamaLoop]
    simp only [Nat.add_sub_cancel]
    by_cases hc : h (m + 1) = prevOf h (m + 1)
    · rw [if_pos hc]
      have hcnt : stableCnt h (m + 1) = stableCnt h m + 1 := by
        rw [stableCnt, if_pos (by rw [← hprev]; exact hc)]
      by_cases h3 : 3 ≤ stableCnt h m + 1
      · rw [if_pos h3]; omega
      · rw [if_neg h3]
        have hne : ¬ n = m + 1 := by
          intro he; rw [he, hcnt] at hst; omega
        have step : bamaLoop h fuel (m + 2) (h (m + 1)) (stableCnt h m + 1) =
            bamaLoop h fuel (m + 2) (prevOf h (m + 2)) (stableCnt h (m + 2 - 1)) := by
          rw [show prevOf h (m + 2) = h (m + 1) from by unfold prevOf; simp,
            show m + 2 - 1 = m + 1 from by omega, hcnt]
        rw [step]
        exact ih (m + 2) n (by omega) (by omega) (by omega) hst
    · rw [if_neg hc]
      have hcnt : stableCnt h (m + 1) = 0 := by
        rw [stableCnt, if_neg (by rw [← hprev]; exact hc)]
      have hne : ¬ n = m + 1 := by
        intro he; rw [he, hcnt] at hst; omega
      have step : bamaLoop h fuel (m + 2) (h (m + 1)) 0 =
          bamaLoop h fuel (m + 2) (prevOf h (m + 2)) (stableCnt h (m + 2 - 1)) := by
        rw [show prevOf h (m + 2) = h (m + 1) from by unfold prevOf; simp,
          show m + 2 - 1 = m + 1 from by omega, hcnt]
      rw [step]
      exact ih (m + 2) n (by omega) (by omega) (by omega) hst

/-- C7.  Both reveal loops respect their round caps on every height/count
sequence: the Bama scroll loop runs at most 50 rounds and stops by round `n`
whenever the height was unchanged for 3 consecutive rounds ending at `n`,
and the Divar loop performs exactly 15 rounds with no early exit. -/
theorem scroll_loops_bounded (h c : Nat → Nat) (n : Nat) :
    bamaRounds h ≤ 50
      ∧ (1 ≤ n → n ≤ 50 → 3 ≤ stableCnt h n → bamaRounds h ≤ n)
      ∧ (divarScrollLog c).length = 15 := by
  refine ⟨le_trans (bamaLoop_le h 50 1 0 0) (by omega), ?_, by simp [divarScrollLog]⟩
  intro h1 h50 hst
  have := bamaLoop_stable_le h 50 1 n le_rfl h1 (by omega) hst
  simpa [bamaRounds, prevOf, stableCnt] using this

/-- Closed instance of the C7 theorem: on a constant-zero height sequence the
height is unchanged from the first round, so the loop stops by round 3. -/
theorem scroll_loops_bounded_witness :
    bamaRounds (fun _ => 0) ≤ 3 ∧ (divarScrollLog (fun i => i)).length = 15 :=
  ⟨(scroll_loops_bounded (fun _ => 0) (fun i => i) 3).2.1 (by omega) (by omega)
      (by decide),
    (scroll_loops_bounded (fun _ => 0) (fun i => i) 3).2.2⟩

/-! ## Anti-bot classification -/

/-- C10 counterexample.  A page whose body (but not title) contains the
configured Cloudflare marker is classified OK by the code, while the spec's
rule — any configured marker phrase in title or body — classifies it
BLOCKED: the Cloudflare marker is consulted for the title only. -/
theorem blocked_body_cloudflare_not_flagged :
    classifyBlocked "Welcome" (some "Cloudflare says hi") = false
      ∧ specBlocked "Welcome" "Cloudflare says hi" = true := by
  constructor <;> decide

/-- C10 (amended).  A navigated page is classified BLOCKED exactly when the
lowercased title contains the lowercased Cloudflare title marker or one of
the anti-bot phrases, or the lowercased body text (empty when
`text_content` returned None) contains one of the anti-bot phrases; in
particular every page the code flags is also flagged by the spec's rule,
the divergence being only the Cloudflare marker in the body. -/
theorem blocked_classification (title : String) (bodyText : Option String) :
    (classifyBlocked title bodyText = true ↔
        ((∃ p ∈ strToLower CLOUDFLARE_TITLE :: ANTI_BOT_PHRASES,
            strContains (strToLower title) p = true)
          ∨ ∃ p ∈ ANTI_BOT_PHRASES,
              strContains (strToLower (bodyText.getD "")) p = true))
      ∧ (classifyBlocked title bodyText = true →
          specBlocked title (bodyText.getD "") = true) := by
  have low1 : strToLower "just a moment" = "just a moment" := by decide
  have low2 : strToLower "checking your browser" = "checking your browser" := by
    decide
  constructor
  · simp [classifyBlocked, titleBlocked, bodyBlocked, List.any_eq_true]
  · intro hb
    rw [classifyBlocked, Bool.or_eq_true, titleBlocked, bodyBlocked,
      List.any_eq_true, List.any_eq_true] at hb
    rw [specBlocked, List.any_eq_true]
    rcases hb with ⟨p, hp, hc⟩ | ⟨p, hp, hc⟩ <;>
      simp only [ANTI_BOT_PHRASES, List.mem_cons, List.not_mem_nil,
        or_false] at hp
    · rcases hp with rfl | rfl | rfl
      · exact ⟨CLOUDFLARE_TITLE, by simp, by simp [hc]⟩
      · exact ⟨"just a moment", by simp [ANTI_BOT_PHRASES],
          by rw [low1]; simp [hc]⟩
      · exact ⟨"checking your browser", by simp [ANTI_BOT_PHRASES],
          by rw [low2]; simp [hc]⟩
    · rcases hp with rfl | rfl
      · exact ⟨"just a moment", by simp [ANTI_BOT_PHRASES],
          by rw [low1]; simp [hc]⟩
      · exact ⟨"checking your browser", by simp [ANTI_BOT_PHRASES],
          by rw [low2]; simp [hc]⟩

/-- Closed instance of the C10 theorem: a page whose title carries an
anti-bot phrase is flagged by the code, hence also by the spec's rule. -/
theorem blocked_classification_witness :
    specBlocked "Just a Moment..." "" = true :=
  (blocked_classification "Just a Moment..." none).2 (by decide)

/-! ## Browser fallback -/

theorem failCleanup_ok {e : EngineSpec} (hp : e.pageCloseOk = true)
    (hc : e.contextCloseOk = true) (hb : e.browserCloseOk = true) :
    failCleanup e = .ok () := by
  simp [failCleanup, hp, hc, hb]

theorem closedOnFail_all {e : EngineSpec} (hp : e.pageCloseOk = true)
    (hc : e.contextCloseOk = true) (hb : e.browserCloseOk = true) :
    closedOnFail e = (createdPage e, createdContext e, createdBrowser e) := by
  simp [closedOnFail, hp, hc, hb]

/-- C4 counterexample.  One engine whose navigation fails and whose
`page.close()` raises: the fallback neither cleans up the remaining
resources nor falls through — the close exception propagates to the caller
instead of the `(None, None)` sentinel. -/
theorem fallback_close_error_propagates :
    engineSucceeds ⟨true, true, true, false, "", none, false, true, true⟩ = false
      ∧ launch_browser_with_fallback
          [⟨true, true, true, false, "", none, false, true, true⟩] =
        .error "page close failed" := by
  constructor <;> rfl

/-- C4 (amended).  When every close call of every candidate engine succeeds,
the fallback never raises to the caller: each failing or BLOCKED engine has
every resource it created (page, context, browser) closed and the loop
proceeds to the next engine, and if all engines fail the sentinel
`(None, None)` is returned.  (A failing close, by contrast, aborts the
remaining closes and propagates — see the counterexample.) -/
theorem fallback_cleanup_and_sentinel (engines : List EngineSpec)
    (hclose : ∀ e ∈ engines,
      e.pageCloseOk = true ∧ e.contextCloseOk = true ∧ e.browserCloseOk = true) :
    (∃ r, launch_browser_with_fallback engines = .ok r)
      ∧ ((∀ e ∈ engines, engineSucceeds e = false) →
          launch_browser_with_fallback engines = .ok .noSession)
      ∧ (∀ e rest, engines = e :: rest → engineSucceeds e = false →
          launch_browser_with_fallback engines = launch_browser_with_fallback rest)
      ∧ (∀ e ∈ engines, engineSucceeds e = false →
          closedOnFail e = (createdPage e, createdContext e, createdBrowser e)) := by
  have skip : ∀ e rest, (e.pageCloseOk = true ∧ e.contextCloseOk = true ∧
      e.browserCloseOk = true) → engineSucceeds e = false →
      launch_browser_with_fallback (e :: rest) =
        launch_browser_with_fallback rest := by
    rintro e rest ⟨hp, hc, hb⟩ hf
    rw [launch_browser_with_fallback, if_neg (by simp [hf]),
      failCleanup_ok hp hc hb]
  refine ⟨?_, ?_, ?_, ?_⟩
  · induction engines with
    | nil => exact ⟨.noSession, rfl⟩
    | cons e rest ih =>
      by_cases hs : engineSucceeds e
      · exact ⟨.session e, by rw [launch_browser_with_fallback, if_pos hs]⟩
      · rw [skip e rest (hclose e (List.mem_cons_self e rest))
          (Bool.eq_false_iff.mpr hs)]
        exact ih (fun x hx => hclose x (List.mem_cons_of_mem e hx))
  · induction engines with
    | nil => intro _; rfl
    | cons e rest ih =>
      intro hall
      rw [skip e rest (hclose e (List.mem_cons_self e rest))
        (hall e (List.mem_cons_self e rest))]
      exact ih (fun x hx => hclose x (List.mem_cons_of_mem e hx))
        (fun x hx => hall x (List.mem_cons_of_mem e hx))
  · intro e rest hcons hf
    subst hcons
    exact skip e rest (hclose e (List.mem_cons_self e rest)) hf
  · intro e he _
    obtain ⟨hp, hc, hb⟩ := hclose e he
    exact closedOnFail_all hp hc hb

/-- Closed instance of the C4 theorem, at the spec's scenario: engine X's
body contains an anti-bot marker phrase and engine Y fails to launch; all
closes succeed, so the fallback closes X's created resources, proceeds to
Y, and — with both failing — returns the sentinel without raising. -/
theorem fallback_cleanup_and_sentinel_witness :
    launch_browser_with_fallback
        [⟨true, true, true, true, "ok", some "just a moment", true, true, true⟩,
         ⟨false, true, true, true, "", none, true, true, true⟩] =
      .ok .noSession :=
  (fallback_cleanup_and_sentinel
      [⟨true, true, true, true, "ok", some "just a moment", true, true, true⟩,
       ⟨false, true, true, true, "", none, true, true, true⟩]
      (by decide)).2.1 (by decide)

/-! ## Lemmas about the row order -/

theorem charsLe_total : ∀ xs ys, (charsLe xs ys || charsLe ys xs) = true
  | [], ys => by simp [charsLe]
  | _ :: _, [] => by simp [charsLe]
  | a :: xs, b :: ys => by
    rw [charsLe, charsLe]
    by_cases hab : a.toNat < b.toNat
    · simp [hab]
    · by_cases hba : b.toNat < a.toNat
      · simp [hab, hba]
      · simpa [hab, hba] using charsLe_total xs ys

theorem charsLe_trans : ∀ xs ys zs, charsLe xs ys = true → charsLe ys zs = true →
    charsLe xs zs = true
  | [], _, zs, _, _ => by simp [charsLe]
  | _ :: _, [], _, h1, _ => by simp [charsLe] at h1
  | _ :: _, _ :: _, [], _, h2 => by simp [charsLe] at h2
  | a :: xs, b :: ys, c :: zs, h1, h2 => by
    rw [charsLe] at h1 h2 ⊢
    by_cases hab : a.toNat < b.toNat <;> by_cases hba : b.toNat < a.toNat <;>
      by_cases hbc : b.toNat < c.toNat <;> by_cases hcb : c.toNat < b.toNat <;>
      simp [hab, hba, hbc, hcb] at h1 h2 ⊢ <;>
      first
        | omega
        | exact Or.inl (by omega)
        | exact Or.inr ⟨by omega, charsLe_trans xs ys zs h1 h2⟩

theorem optLe_total (a b : Option String) : (optLe a b || optLe b a) = true := by
  cases a <;> cases b <;> simp [optLe, strLe, charsLe_total]

theorem optLe_trans {a b c : Option String} (h1 : optLe a b = true)
    (h2 : optLe b c = true) : optLe a c = true := by
  cases a <;> cases b <;> cases c <;>
    simp [optLe, strLe] at h1 h2 ⊢ <;>
    exact charsLe_trans _ _ _ h1 h2

theorem modelLe_total (r s : RawRecord) : (modelLe r s || modelLe s r) = true :=
  optLe_total _ _

theorem modelLe_trans {r s t : RawRecord} (h1 : modelLe r s = true)
    (h2 : modelLe s t = true) : modelLe r t = true :=
  optLe_trans h1 h2

theorem orderedInsertB_perm (a : RawRecord) :
    ∀ l, List.Perm (orderedInsertB a l) (a :: l)
  | [] => List.Perm.refl _
  | b :: bs => by
    rw [orderedInsertB]
    split
    · exact List.Perm.refl _
    · exact ((orderedInsertB_perm a bs).cons b).trans (List.Perm.swap a b bs)

theorem sortByModel_perm : ∀ l, List.Perm (sortByModel l) l
  | [] => List.Perm.refl _
  | a :: rest =>
    (orderedInsertB_perm a (sortByModel rest)).trans
      ((sortByModel_perm rest).cons a)

theorem mem_sortByModel {a : RawRecord} {l : List RawRecord} :
    a ∈ sortByModel l ↔ a ∈ l :=
  (sortByModel_perm l).mem_iff

theorem orderedInsertB_sorted (a : RawRecord) :
    ∀ l, l.Pairwise (fun r s => modelLe r s = true) →
      (orderedInsertB a l).Pairwise (fun r s => modelLe r s = true)
  | [], _ => by simp [orderedInsertB]
  | b :: bs, h => by
    rw [orderedInsertB]
    split
    · next hab =>
      refine List.Pairwise.cons ?_ h
      intro x hx
      rcases List.mem_cons.mp hx with rfl | hx
      · exact hab
      · exact modelLe_trans hab (List.rel_of_pairwise_cons h hx)
    · next hab =>
      have hba : modelLe b a = true := by
        have := modelLe_total a b
        simp [Bool.eq_false_iff.mpr hab] at this
        exact this
      refine List.Pairwise.cons ?_ (orderedInsertB_sorted a bs h.of_cons)
      intro x hx
      rcases List.mem_cons.mp ((orderedInsertB_perm a bs).mem_iff.mp hx) with
        rfl | hx
      · exact hba
      · exact List.rel_of_pairwise_cons h hx

theorem sortByModel_sorted :
    ∀ l, (sortByModel l).Pairwise (fun r s => modelLe r s = true)
  | [] => by simp [sortByModel]
  | a :: rest => orderedInsertB_sorted a _ (sortByModel_sorted rest)

theorem sortByModel_of_sorted :
    ∀ {l}, l.Pairwise (fun r s => modelLe r s = true) → sortByModel l = l
  | [], _ => rfl
  | a :: rest, h => by
    rw [sortByModel, sortByModel_of_sorted h.of_cons]
    cases rest with
    | nil => rfl
    | cons b bs =>
      rw [orderedInsertB,
        if_pos (List.rel_of_pairwise_cons h (List.mem_cons_self b bs))]

/-! ## Lemmas about deduplication and the column check -/

theorem mem_of_mem_rawDedupGo :
    ∀ (l : List RawRecord) (seen) (r : RawRecord),
      r ∈ rawDedupGo l seen → r ∈ l
  | [], _, _, h => by simp [rawDedupGo] at h
  | x :: rs, seen, r, h => by
    rw [rawDedupGo] at h
    split at h
    · exact List.mem_cons_of_mem x (mem_of_mem_rawDedupGo rs seen r h)
    · rcases List.mem_cons.mp h with rfl | h
      · exact List.mem_cons_self r rs
      · exact List.mem_cons_of_mem x (mem_of_mem_rawDedupGo rs _ r h)

theorem rawDedupGo_countP (k : List (Option String)) :
    ∀ (l : List RawRecord) (seen),
      (rawDedupGo l seen).countP (fun r => rawKey r == k) =
        if seen.contains k then 0
        else if l.any (fun r => rawKey r == k) then 1 else 0
  | [], seen => by cases h : seen.contains k <;> simp [rawDedupGo, h]
  | x :: rs, seen => by
    rw [rawDedupGo]
    split
    · next hseen =>
      rw [rawDedupGo_countP k rs seen]
      cases hk : seen.contains k
      · have hxk : (rawKey x == k) = false := by
          by_contra hc
          rw [Bool.not_eq_false, beq_iff_eq] at hc
          rw [hc] at hseen
          rw [hseen] at hk
          cases hk
        simp [hk, List.any_cons, hxk]
      · simp [hk]
    · next hseen =>
      have hseen' : seen.contains (rawKey x) = false :=
        Bool.not_eq_true _ ▸ hseen
      rw [List.countP_cons, rawDedupGo_countP k rs (rawKey x :: seen)]
      cases hxk : (rawKey x == k)
      · have hflip : (k == rawKey x) = false := by
          by_contra hc
          rw [Bool.not_eq_false, beq_iff_eq] at hc
          subst hc
          simp at hxk
        have hcons : (rawKey x :: seen).contains k = seen.contains k := by
          rw [List.contains_cons, hflip, Bool.false_or]
        rw [hcons]
        cases hk : seen.contains k <;>
          simp [hxk, List.any_cons, hk]
      · have hkeq : rawKey x = k := beq_iff_eq.mp hxk
        have hcons : (rawKey x :: seen).contains k = true := by
          rw [List.contains_cons, hkeq]
          simp
        have hs : seen.contains k = false := hkeq ▸ hseen'
        have hnotmem : k ∉ seen := by
          intro hm
          have hc : seen.contains k = true := by
            rw [List.contains_iff_exists_mem_beq]
            exact ⟨k, hm, beq_self_eq_true k⟩
          rw [hs] at hc
          cases hc
        rw [hcons]
        simp [hs, List.any_cons, hxk, hnotmem]

theorem rawDedupGo_keys :
    ∀ (l : List RawRecord) (seen),
      ((rawDedupGo l seen).map rawKey).Nodup
        ∧ ∀ k ∈ (rawDedupGo l seen).map rawKey, seen.contains k = false
  | [], seen => by simp [rawDedupGo]
  | x :: rs, seen => by
    rw [rawDedupGo]
    split
    · exact rawDedupGo_keys rs seen
    · next hseen =>
      have hseen' : seen.contains (rawKey x) = false :=
        Bool.not_eq_true _ ▸ hseen
      obtain ⟨hnd, hall⟩ := rawDedupGo_keys rs (rawKey x :: seen)
      constructor
      · rw [List.map_cons]
        refine List.nodup_cons.mpr ⟨?_, hnd⟩
        intro hmem
        have h1 := hall _ hmem
        rw [List.contains_cons] at h1
        simp at h1
      · intro k hk
        rw [List.map_cons] at hk
        rcases List.mem_cons.mp hk with rfl | hk2
        · exact hseen'
        · have h1 := hall k hk2
          rw [List.contains_cons, Bool.or_eq_false_iff] at h1
          exact h1.2

theorem rawDedupGo_eq_self :
    ∀ (l : List RawRecord) (seen), (l.map rawKey).Nodup →
      (∀ k ∈ l.map rawKey, seen.contains k = false) → rawDedupGo l seen = l
  | [], _, _, _ => rfl
  | x :: rs, seen, hnd, hall => by
    rw [List.map_cons] at hnd hall
    have hnc := List.nodup_cons.mp hnd
    have hx : seen.contains (rawKey x) = false :=
      hall _ (List.mem_cons_self _ _)
    rw [rawDedupGo, if_neg (by intro hc; rw [hx] at hc; cases hc)]
    congr 1
    refine rawDedupGo_eq_self rs _ hnc.2 ?_
    intro k hk
    have hne : k ≠ rawKey x := by
      intro he
      exact hnc.1 (he ▸ hk)
    rw [List.contains_cons, Bool.or_eq_false_iff]
    exact ⟨beq_eq_false_iff_ne.mpr hne, hall k (List.mem_cons_of_mem _ hk)⟩

theorem mem_firstDedup : ∀ (x : String) (l), x ∈ firstDedup l ↔ x ∈ l
  | _, [] => Iff.rfl
  | x, k :: ks => by
    rw [firstDedup]
    constructor
    · intro h
      rcases List.mem_cons.mp h with rfl | h
      · exact List.mem_cons_self _ _
      · exact List.mem_cons_of_mem _
          ((mem_firstDedup x ks).mp (List.mem_filter.mp h).1)
    · intro h
      rcases List.mem_cons.mp h with rfl | h
      · exact List.mem_cons_self _ _
      · by_cases hx : x = k
        · subst hx; exact List.mem_cons_self _ _
        · exact List.mem_cons_of_mem _ (List.mem_filter.mpr
            ⟨(mem_firstDedup x ks).mpr h, by simpa [bne_iff_ne] using hx⟩)

theorem mem_rawColumns (data : List RawRecord) (k : String) :
    k ∈ rawColumns data ↔ ∃ r ∈ data, k ∈ recKeys r := by
  rw [rawColumns, mem_firstDedup]
  simp [List.mem_flatMap]

theorem get_eq_none_iff (r : RawRecord) (k : String) :
    RawRecord.get r k = none ↔ k ∉ recKeys r := by
  rw [RawRecord.get, Option.map_eq_none', List.find?_eq_none, recKeys]
  constructor
  · intro h hk
    obtain ⟨p, hp, hpk⟩ := List.mem_map.mp hk
    exact h p hp (by rw [hpk]; exact beq_self_eq_true _)
  · intro h p hp hbeq
    exact h (List.mem_map.mpr ⟨p, hp, beq_iff_eq.mp (by simpa using hbeq)⟩)

theorem hasDedupCols_false_of_no_year (data : List RawRecord)
    (hy : ∀ r ∈ data, RawRecord.get r "year" = none) :
    hasDedupCols data = false := by
  by_contra hc
  rw [Bool.not_eq_false, hasDedupCols, List.all_eq_true] at hc
  have hyear := hc "year" (by simp [dedupSubsetCols])
  rw [List.contains_iff_exists_mem_beq] at hyear
  obtain ⟨y, hy1, hy2⟩ := hyear
  rw [beq_iff_eq] at hy2
  subst hy2
  rw [mem_rawColumns] at hy1
  obtain ⟨r, hr, hk⟩ := hy1
  exact (get_eq_none_iff r "year").mp (hy r hr) hk

/-! ## Lemmas about the extraction mappers -/

theorem bamaCard_spec {today : String} {c : BamaCard} {r : RawRecord}
    (h : bamaCard today c = some r) :
    renderField r "model" ≠ ""
      ∧ (renderField r "price" ≠ "" ∨ renderField r "price_status" = "negotiable")
      ∧ ¬(renderField r "price" = "" ∧ renderField r "price_status" = "fixed") := by
  cases hl : c.link with
  | none =>
    rw [bamaCard, hl] at h
    exact Option.noConfusion h
  | some l =>
    cases hp : c.priceText with
    | some raw =>
      simp only [bamaCard, hl, hp] at h
      split at h
      · next hcond =>
        injection h with h
        subst h
        simp only [Bool.and_eq_true, Bool.or_eq_true, bne_iff_ne, ne_eq,
          beq_iff_eq] at hcond
        obtain ⟨hm, hpr⟩ := hcond
        have hpr2 : clean_price raw ≠ "" := by
          rcases hpr with hpr | hpr
          · exact hpr
          · exact absurd hpr (by decide)
        exact ⟨hm, Or.inl hpr2, fun hq => hpr2 hq.1⟩
      · exact Option.noConfusion h
    | none =>
      cases hn : c.negotiableText with
      | none =>
        rw [bamaCard, hl, hp, hn] at h
        exact Option.noConfusion h
      | some raw =>
        simp only [bamaCard, hl, hp, hn] at h
        by_cases hz : clean_price raw = "" <;>
          [rw [if_pos hz] at h; rw [if_neg hz] at h] <;>
        · split at h
          · next hcond =>
            injection h with h
            subst h
            simp only [Bool.and_eq_true, bne_iff_ne, ne_eq] at hcond
            refine ⟨hcond.1, Or.inr rfl, ?_⟩
            intro hq
            have h2 : ("negotiable" : String) = "fixed" := hq.2
            exact absurd h2 (by decide)
          · exact Option.noConfusion h

theorem divarCard_spec {today : String} {c : DivarCard} {r : RawRecord}
    (h : divarCard today c = some r) :
    renderField r "price" ≠ ""
      ∧ RawRecord.get r "price_status" = none
      ∧ RawRecord.get r "year" = none := by
  simp only [divarCard] at h
  split at h
  · injection h with h
    subst h
    refine ⟨?_, rfl, rfl⟩
    show (if jsStripNonDigits (pyStrip (c.descTexts.getD 1 "")) = "" then
        negotiableSentinel
      else jsStripNonDigits (pyStrip (c.descTexts.getD 1 ""))) ≠ ""
    split
    · decide
    · next hne => exact hne
  · cases h

/-- Shared core of C1/C2: a non-empty batch in which no record carries a
`year` key makes `drop_duplicates` raise, and nothing is written. -/
theorem rawSave_no_year_error (data : List RawRecord) (fs : FileSys)
    (pfx today : String) (hne : data ≠ [])
    (hy : ∀ r ∈ data, RawRecord.get r "year" = none) :
    rawSave data = .error keyErrMsg
      ∧ rawSaveFS fs data pfx today = (fs, .error keyErrMsg) := by
  have hcols := hasDedupCols_false_of_no_year data hy
  have hemp : data.isEmpty = false := by
    cases data with
    | nil => exact absurd rfl hne
    | cons a l => rfl
  constructor
  · simp [rawSave, hemp, hcols]
  · simp [rawSaveFS, hemp, hcols]

/-! ## Claim theorems on persistence and extraction -/

/-- C1 (amended).  The claim holds once "some record lacks a `year` key" is
strengthened to "no record carries a `year` key" (then the DataFrame has no
`year` column at all): for every such non-empty batch — the case for every
Divar batch, whose records carry only model, mileage, price, source_url and
scrape_date — `save_to_csv` raises the `drop_duplicates` KeyError and
writes neither a primary nor a backup file.  With a mixed batch the `year`
column exists (NaN for the lacking record) and no exception is raised — see
the counterexample. -/
theorem save_missing_year_column_raises (data : List RawRecord) (fs : FileSys)
    (pfx today : String) (hne : data ≠ [])
    (hy : ∀ r ∈ data, RawRecord.get r "year" = none) :
    rawSave data = .error keyErrMsg
      ∧ rawSaveFS fs data pfx today = (fs, .error keyErrMsg) :=
  rawSave_no_year_error data fs pfx today hne hy

/-- Concrete Divar card used in witnesses. -/
def divarCardW : DivarCard := ⟨true, "Pride", ["50000", "150"]⟩

/-- Closed instance of the C1 theorem on a batch extracted by the Divar
mapper. -/
theorem save_missing_year_column_raises_witness :
    rawSave (divarExtract [divarCardW] "2025-11-10") = .error keyErrMsg
      ∧ rawSaveFS (fun _ => none) (divarExtract [divarCardW] "2025-11-10")
          "divar" "2025-11-10" = ((fun _ => none), .error keyErrMsg) :=
  save_missing_year_column_raises _ _ _ _ (by decide) (by decide)

/-- A batch in which the second record lacks `year` but the first has it. -/
def mixedBatch : List RawRecord :=
  [[("model", "a"), ("year", "1398"), ("mileage", "10"), ("price", "5"),
      ("source_url", "u")],
   [("model", "b"), ("mileage", "20"), ("price", "6"), ("source_url", "v")]]

/-- C1 counterexample.  A non-empty batch in which some (but not every)
record lacks a `year` key: the DataFrame still has a `year` column, so
`save_to_csv` raises nothing and writes both rows to the primary file,
contradicting the claim as stated. -/
theorem save_mixed_year_batch_succeeds :
    (mixedBatch.map (fun r => RawRecord.get r "year")) = [some "1398", none]
      ∧ rawSave mixedBatch = .ok (some (savedRecords mixedBatch))
      ∧ (savedRecords mixedBatch).length = 2
      ∧ (rawSaveFS (fun _ => none) mixedBatch "divar" "2025-11-10").2 =
          .ok (some (primaryPath "divar" "2025-11-10"))
      ∧ (rawSaveFS (fun _ => none) mixedBatch "divar" "2025-11-10").1
          (primaryPath "divar" "2025-11-10") = some (csvRows mixedBatch) :=
  ⟨rfl, rfl, rfl, rfl, rfl⟩

/-- C2.  No row of a written CSV file has an empty model: every record the
Bama mapper retains has a non-empty model, which dedup and sort preserve;
and a non-empty Divar batch never reaches the writer at all, because
`save_to_csv` raises on the missing `year` column first. -/
theorem saved_rows_model_nonempty (bcards : List BamaCard)
    (dcards : List DivarCard) (today : String) :
    (∀ rows, rawSave (bamaExtract bcards today) = .ok (some rows) →
        ∀ r ∈ rows, renderField r "model" ≠ "")
      ∧ (divarExtract dcards today ≠ [] →
          rawSave (divarExtract dcards today) = .error keyErrMsg) := by
  constructor
  · intro rows hsave r hr
    have hrows : rows = savedRecords (bamaExtract bcards today) := by
      rw [rawSave] at hsave
      split at hsave
      · cases hsave
      · split at hsave
        · injection hsave with hsave
          injection hsave with hsave
          exact hsave.symm
        · cases hsave
    rw [hrows, savedRecords] at hr
    have hr2 : r ∈ rawDedup (bamaExtract bcards today) := mem_sortByModel.mp hr
    have hr3 : r ∈ bamaExtract bcards today :=
      mem_of_mem_rawDedupGo _ _ _ hr2
    obtain ⟨c, _, hcr⟩ := List.mem_filterMap.mp hr3
    exact (bamaCard_spec hcr).1
  · intro hne
    have hy : ∀ r ∈ divarExtract dcards today,
        RawRecord.get r "year" = none := by
      intro r hr
      obtain ⟨c, _, hcr⟩ := List.mem_filterMap.mp hr
      exact (divarCard_spec hcr).2.2
    exact (rawSave_no_year_error _ (fun _ => none) "divar" today hne hy).1

/-- Concrete Bama card used in witnesses. -/
def bamaCardW : BamaCard :=
  ⟨some ⟨some "Pride 111", some "/ad/1"⟩, some "1398", ["50,000 km"],
    some "nice", some "۱۲۳", none⟩

/-- The record the Bama mapper produces from `bamaCardW`. -/
def bamaRecW : RawRecord :=
  [("model", "Pride 111"), ("year", "1398"), ("mileage", "50,000 km"),
   ("description", "nice"), ("price", "۱۲۳"), ("price_status", "fixed"),
   ("source_url", "https://bama.ir/ad/1"), ("scrape_date", "2025-11-10")]

/-- Closed instance of the C2 theorem at concrete cards. -/
theorem saved_rows_model_nonempty_witness :
    renderField bamaRecW "model" ≠ ""
      ∧ rawSave (divarExtract [divarCardW] "2025-11-10") = .error keyErrMsg :=
  ⟨(saved_rows_model_nonempty [bamaCardW] [divarCardW] "2025-11-10").1
      (savedRecords (bamaExtract [bamaCardW] "2025-11-10")) rfl
      bamaRecW (by decide),
    (saved_rows_model_nonempty [bamaCardW] [divarCardW] "2025-11-10").2
      (by decide)⟩

/-- C3 (amended).  Every record retained by a mapper satisfies the price
rule: Bama rows have a non-empty price or negotiable status and never an
empty price with fixed status, and Divar rows always carry a non-empty
price (the negotiable sentinel substitutes for a digitless price) and no
`price_status` field at all.  The model rule holds only for the Bama
mapper: the Divar mapper retains any card whose title element exists with
at least two description fields, even when the title text is empty — see
the counterexample. -/
theorem mapper_retention_invariant (bcards : List BamaCard)
    (dcards : List DivarCard) (today : String) :
    (∀ r ∈ bamaExtract bcards today,
        renderField r "model" ≠ ""
          ∧ (renderField r "price" ≠ ""
              ∨ renderField r "price_status" = "negotiable")
          ∧ ¬(renderField r "price" = ""
              ∧ renderField r "price_status" = "fixed"))
      ∧ (∀ r ∈ divarExtract dcards today,
          renderField r "price" ≠ ""
            ∧ RawRecord.get r "price_status" = none) := by
  constructor
  · intro r hr
    obtain ⟨c, _, hcr⟩ := List.mem_filterMap.mp hr
    exact bamaCard_spec hcr
  · intro r hr
    obtain ⟨c, _, hcr⟩ := List.mem_filterMap.mp hr
    exact ⟨(divarCard_spec hcr).1, (divarCard_spec hcr).2.1⟩

/-- The record the Divar mapper produces from `divarCardW`. -/
def divarRecW : RawRecord :=
  [("model", "Pride"), ("mileage", "50000"), ("price", "150"),
   ("source_url", divarUrlConst), ("scrape_date", "2025-11-10")]

/-- Closed instance of the C3 theorem at concrete cards. -/
theorem mapper_retention_invariant_witness :
    (renderField bamaRecW "model" ≠ ""
        ∧ (renderField bamaRecW "price" ≠ ""
            ∨ renderField bamaRecW "price_status" = "negotiable")
        ∧ ¬(renderField bamaRecW "price" = ""
            ∧ renderField bamaRecW "price_status" = "fixed"))
      ∧ (renderField divarRecW "price" ≠ ""
          ∧ RawRecord.get divarRecW "price_status" = none) :=
  ⟨(mapper_retention_invariant [bamaCardW] [divarCardW] "2025-11-10").1
      bamaRecW (by decide),
    (mapper_retention_invariant [bamaCardW] [divarCardW] "2025-11-10").2
      divarRecW (by decide)⟩

/-- C3 counterexample.  A Divar card whose title element exists but whose
title text is whitespace only: the mapper retains a record with an empty
model, so retention does not require a non-empty model. -/
theorem divar_retains_empty_model :
    (divarExtract [⟨true, "  ", ["a", "1b2"]⟩] "2025-11-10").map
        (fun r => renderField r "model") = [""]
      ∧ (divarExtract [⟨true, "  ", ["a", "1b2"]⟩] "2025-11-10").length = 1 := by
  decide

/-- C8.  In every batch holding two distinct records that agree on the
dedup key (model, year, mileage, price, source_url) — e.g. differing only
in description — exactly one record with that key survives deduplication at
save time, and the saved rows come out sorted ascending by model. -/
theorem dedup_collapses_key_duplicates (data : List RawRecord)
    (r1 r2 : RawRecord) (h1 : r1 ∈ data) (_h2 : r2 ∈ data) (_hne : r1 ≠ r2)
    (_hkey : rawKey r1 = rawKey r2) :
    (savedRecords data).countP (fun r => rawKey r == rawKey r1) = 1
      ∧ (savedRecords data).Pairwise (fun a b => modelLe a b = true) := by
  constructor
  · rw [savedRecords,
      List.Perm.countP_eq _ (sortByModel_perm (rawDedup data)), rawDedup,
      rawDedupGo_countP (rawKey r1) data []]
    have hany : data.any (fun r => rawKey r == rawKey r1) = true :=
      List.any_eq_true.mpr ⟨r1, h1, beq_self_eq_true _⟩
    simp [hany]
  · exact sortByModel_sorted _

/-- First of two records agreeing on the dedup key. -/
def wrecA : RawRecord :=
  [("model", "Pride"), ("year", "1398"), ("mileage", "10"),
   ("description", "first"), ("price", "100"), ("price_status", "fixed"),
   ("source_url", "u"), ("scrape_date", "d")]

/-- Second record: same key as `wrecA`, different description. -/
def wrecB : RawRecord :=
  [("model", "Pride"), ("year", "1398"), ("mileage", "10"),
   ("description", "second"), ("price", "100"), ("price_status", "fixed"),
   ("source_url", "u"), ("scrape_date", "d")]

/-- Closed instance of the C8 theorem at two records differing only in
description. -/
theorem dedup_collapses_key_duplicates_witness :
    (savedRecords [wrecA, wrecB]).countP
        (fun r => rawKey r == rawKey wrecA) = 1
      ∧ (savedRecords [wrecA, wrecB]).Pairwise
          (fun a b => modelLe a b = true) :=
  dedup_collapses_key_duplicates [wrecA, wrecB] wrecA wrecB (by decide)
    (by decide) (by decide) (by decide)

/-- C9.  Saving the same non-empty batch twice on the same day with the same
prefix leaves the file system exactly as one save does (`to_csv` truncates
and rewrites, no append or merge), the written file holds the header plus
the deduplicated sorted rows, and the dedup-and-sort pipeline is itself
idempotent. -/
theorem save_idempotent_overwrite (fs : FileSys) (data : List RawRecord)
    (pfx today : String) (hne : data ≠ [])
    (hcols : hasDedupCols data = true) :
    (rawSaveFS ((rawSaveFS fs data pfx today).1) data pfx today).1 =
        (rawSaveFS fs data pfx today).1
      ∧ (rawSaveFS fs data pfx today).1 (primaryPath pfx today) =
          some (csvRows data)
      ∧ (rawSaveFS fs data pfx today).1 (backupPath pfx today) =
          some (csvRows data)
      ∧ (csvRows data).length = (savedRecords data).length + 1
      ∧ savedRecords (savedRecords data) = savedRecords data := by
  have hemp : data.isEmpty = false := by
    cases data with
    | nil => exact absurd rfl hne
    | cons a l => rfl
  have hfs : ∀ g : FileSys, (rawSaveFS g data pfx today).1 =
      fun path =>
        if path = primaryPath pfx today ∨ path = backupPath pfx today then
          some (csvRows data)
        else g path := by
    intro g
    simp [rawSaveFS, hemp, hcols]
  refine ⟨?_, ?_, ?_, ?_, ?_⟩
  · rw [hfs ((rawSaveFS fs data pfx today).1), hfs fs]
    funext path
    by_cases hp : path = primaryPath pfx today ∨ path = backupPath pfx today
    · simp [hp]
    · simp [hp]
  · rw [hfs]; simp
  · rw [hfs]; simp
  · simp [csvRows]
  · have hnd : ((rawDedup data).map rawKey).Nodup := (rawDedupGo_keys data []).1
    have hnd2 : ((savedRecords data).map rawKey).Nodup :=
      (List.Perm.nodup_iff ((sortByModel_perm (rawDedup data)).map rawKey)).mpr
        hnd
    have hded : rawDedupGo (savedRecords data) [] = savedRecords data :=
      rawDedupGo_eq_self (savedRecords data) [] hnd2 (fun _ _ => rfl)
    show sortByModel (rawDedupGo (savedRecords data) []) = savedRecords data
    rw [hded]
    exact sortByModel_of_sorted (sortByModel_sorted _)

/-- Closed instance of the C9 theorem at a concrete batch and empty file
system. -/
theorem save_idempotent_overwrite_witness :
    (rawSaveFS ((rawSaveFS (fun _ => none) [wrecA, wrecB] "bama"
          "2025-11-10").1) [wrecA, wrecB] "bama" "2025-11-10").1 =
        (rawSaveFS (fun _ => none) [wrecA, wrecB] "bama" "2025-11-10").1
      ∧ (rawSaveFS (fun _ => none) [wrecA, wrecB] "bama" "2025-11-10").1
          (primaryPath "bama" "2025-11-10") = some (csvRows [wrecA, wrecB])
      ∧ (rawSaveFS (fun _ => none) [wrecA, wrecB] "bama" "2025-11-10").1
          (backupPath "bama" "2025-11-10") = some (csvRows [wrecA, wrecB])
      ∧ (csvRows [wrecA, wrecB]).length =
          (savedRecords [wrecA, wrecB]).length + 1
      ∧ savedRecords (savedRecords [wrecA, wrecB]) =
          savedRecords [wrecA, wrecB] :=
  save_idempotent_overwrite (fun _ => none) [wrecA, wrecB] "bama"
    "2025-11-10" (by decide) (by decide)

end VehicleScraper
